import Mathlib

/-!
Verification of the Chainflow roguelike core: dungeon generation,
floor/run controller, combat and drop policy.

The definitions below are a shallow embedding of the TypeScript sources:
- src/game/src/game/systems/DungeonGenerator.ts
- src/game/src/game/entities/Player.ts
- src/game/src/game/entities/Enemy.ts
- src/game/src/game/entities/Item.ts
- src/unnamed/part_002 (the current GameScene / floor controller)

Randomness (Phaser.Math.Between, Math.random) is modelled by explicit
oracle parameters: candidate room tuples, corridor direction choices,
drop rolls and rarity rolls.  JavaScript numbers are modelled as Int/Rat
where fractional arithmetic occurs, and as Nat for indices and tile
coordinates.
-/

namespace Chainflow

/-! ### Rarity enumerations (Item.ts line 7, Enemy.ts line 3) -/

/-- Item rarity, ordered common < uncommon < rare < epic < legendary
(RARITY_ORDER in Item.ts line 51). -/
inductive Rarity
  | common
  | uncommon
  | rare
  | epic
  | legendary
  deriving DecidableEq, Repr

/-- Index of a rarity in RARITY_ORDER (Item.ts line 51). -/
def Rarity.idx : Rarity → Nat
  | .common => 0
  | .uncommon => 1
  | .rare => 2
  | .epic => 3
  | .legendary => 4

/-- Enemy rarity (Enemy.ts line 3). -/
inductive EnemyRarity
  | normal
  | uncommon
  | rare
  | epic
  | legendary
  deriving DecidableEq, Repr

/-! ### Item rarity generation (Item.ts) -/

/-- RARITY_WEIGHTS (Item.ts lines 31-37). -/
def RARITY_WEIGHTS : List (Rarity × Nat) :=
  [(.common, 50), (.uncommon, 30), (.rare, 15), (.epic, 4), (.legendary, 1)]

/-- The weighted-roll loop of Item.generateItemData (Item.ts lines 84-93):
walk the weight table accumulating `cumulative` and return the first rarity
with `roll < cumulative`; the initial value `common` is kept if no entry
matches. -/
def rollItemRarityFrom : Nat → Nat → List (Rarity × Nat) → Rarity
  | _, _, [] => .common
  | roll, cumulative, (r, w) :: rest =>
    if roll < cumulative + w then r
    else rollItemRarityFrom roll (cumulative + w) rest

/-- The rarity computed by Item.generateItemData (Item.ts lines 79-99):
roll a rarity from the weight table, then clamp it up to `minRarity`
when the rolled index is below the minimum index. -/
def generateItemRarity (minRarity : Rarity) (roll : Nat) : Rarity :=
  let rolled := rollItemRarityFrom roll 0 RARITY_WEIGHTS
  if rolled.idx < minRarity.idx then minRarity else rolled

/-- Enemy.getMinDropRarity (Enemy.ts lines 96-105). -/
def getMinDropRarity : EnemyRarity → Rarity
  | .normal => .common
  | .uncommon => .common
  | .rare => .uncommon
  | .epic => .rare
  | .legendary => .epic

/-! ### Enemy stat scaling (Enemy.ts) -/

/-- One row of RARITY_MULTIPLIERS (Enemy.ts lines 6-12). -/
structure RarityMult where
  hp : ℚ
  attack : ℚ
  speed : ℚ
  dropChance : ℚ
  deriving DecidableEq, Repr

/-- RARITY_MULTIPLIERS (Enemy.ts lines 6-12); decimal literals written
as exact rationals. -/
def RARITY_MULTIPLIERS : EnemyRarity → RarityMult
  | .normal => ⟨1, 1, 1, 1 / 5⟩
  | .uncommon => ⟨13 / 10, 6 / 5, 11 / 10, 7 / 20⟩
  | .rare => ⟨8 / 5, 7 / 5, 6 / 5, 1 / 2⟩
  | .epic => ⟨2, 17 / 10, 13 / 10, 7 / 10⟩
  | .legendary => ⟨3, 2, 3 / 2, 19 / 20⟩

/-- Enemy maxHealth (Enemy.ts lines 41, 45):
Math.floor(50 * (1.5 ^ (floor - 1) * rarityMult.hp)). -/
def enemyMaxHealth (floorNum : Nat) (r : EnemyRarity) : ℤ :=
  ⌊(50 : ℚ) * ((3 / 2 : ℚ) ^ (floorNum - 1) * (RARITY_MULTIPLIERS r).hp)⌋

/-- Enemy attack (Enemy.ts lines 42, 47):
Math.floor(10 * (1.3 ^ (floor - 1) * rarityMult.attack)). -/
def enemyAttack (floorNum : Nat) (r : EnemyRarity) : ℤ :=
  ⌊(10 : ℚ) * ((13 / 10 : ℚ) ^ (floorNum - 1) * (RARITY_MULTIPLIERS r).attack)⌋

/-! ### Player damage absorption (Player.ts) -/

/-- The mutable fields of Player that takeDamage reads or writes
(Player.ts lines 8-14). -/
structure PlayerState where
  health : ℤ
  maxHealth : ℤ
  attack : ℤ
  defense : ℤ
  lastDamageTime : ℤ
  deriving DecidableEq, Repr

/-- The damage cooldown in ms (Player.ts line 14). -/
def damageCooldown : ℤ := 500

/-- Player.takeDamage (Player.ts lines 103-124): return unchanged while
on cooldown; otherwise record the hit time and reduce health by
max(1, incomingDamage - defense), clamped at 0. -/
def playerTakeDamage (p : PlayerState) (now incomingDamage : ℤ) : PlayerState :=
  if now - p.lastDamageTime < damageCooldown then p
  else
    let actualDamage := max 1 (incomingDamage - p.defense)
    { p with lastDamageTime := now, health := max 0 (p.health - actualDamage) }

/-! ### Dungeon dimension caps (DungeonGenerator.ts constructor) -/

/-- Grid width (DungeonGenerator.ts line 38):
Math.min(45, baseWidth + (floor - 1) * 2). -/
def dungeonWidth (baseWidth floorNum : Nat) : Nat :=
  min 45 (baseWidth + (floorNum - 1) * 2)

/-- Grid height (DungeonGenerator.ts line 39):
Math.min(35, baseHeight + (floor - 1) * 2). -/
def dungeonHeight (baseHeight floorNum : Nat) : Nat :=
  min 35 (baseHeight + (floorNum - 1) * 2)

/-! ### Dungeon generation (DungeonGenerator.ts)

Tiles are indexed `tiles ty tx` mirroring `this.tiles[y][x]`; value 1 is
Wall, value 0 is Floor.  The random candidate rooms produced by
Phaser.Math.Between (lines 69-72) and the corridor direction coin flips
(line 126) are oracle parameters. -/

/-- Room record (DungeonGenerator.ts lines 3-10). -/
structure Room where
  x : Nat
  y : Nat
  width : Nat
  height : Nat
  centerX : Nat
  centerY : Nat
  deriving DecidableEq, Repr

/-- The room literal built in generateRooms (DungeonGenerator.ts lines
74-81): centerX = Math.floor(x + roomWidth / 2), and likewise for y. -/
def mkRoom (roomWidth roomHeight x y : Nat) : Room :=
  { x := x, y := y, width := roomWidth, height := roomHeight,
    centerX := x + roomWidth / 2, centerY := y + roomHeight / 2 }

/-- A tile grid, as a function from (row, column) to tile value. -/
def TileGrid : Type := Nat → Nat → Nat

/-- The all-walls initial grid (DungeonGenerator.ts lines 44-46). -/
def initTiles : TileGrid := fun _ _ => 1

/-- roomsOverlap (DungeonGenerator.ts lines 103-110): intersection test of
the two bounding boxes extended by 2 tiles. -/
def roomsOverlap (a b : Room) : Prop :=
  a.x < b.x + b.width + 2 ∧ a.x + a.width + 2 > b.x ∧
    a.y < b.y + b.height + 2 ∧ a.y + a.height + 2 > b.y

instance (a b : Room) : Decidable (roomsOverlap a b) := by
  unfold roomsOverlap
  infer_instance

/-- carveRoom (DungeonGenerator.ts lines 112-118): set every tile of the
room rectangle to Floor. -/
def carveRoom (room : Room) (tiles : TileGrid) : TileGrid :=
  fun ty tx =>
    if room.y ≤ ty ∧ ty < room.y + room.height ∧ room.x ≤ tx ∧ tx < room.x + room.width
    then 0 else tiles ty tx

/-- carveHorizontalCorridor (DungeonGenerator.ts lines 136-144): carve the
row `yc` from min x1 x2 to max x1 x2, clipped to the grid bounds (the
`x ≥ 0` and `y ≥ 0` guards are vacuous over Nat). -/
def carveHorizontalCorridor (gridWidth gridHeight x1 x2 yc : Nat)
    (tiles : TileGrid) : TileGrid :=
  fun ty tx =>
    if ty = yc ∧ min x1 x2 ≤ tx ∧ tx ≤ max x1 x2 ∧ ty < gridHeight ∧ tx < gridWidth
    then 0 else tiles ty tx

/-- carveVerticalCorridor (DungeonGenerator.ts lines 146-154). -/
def carveVerticalCorridor (gridWidth gridHeight y1 y2 xc : Nat)
    (tiles : TileGrid) : TileGrid :=
  fun ty tx =>
    if tx = xc ∧ min y1 y2 ≤ ty ∧ ty ≤ max y1 y2 ∧ ty < gridHeight ∧ tx < gridWidth
    then 0 else tiles ty tx

/-- The accept/reject loop of generateRooms (DungeonGenerator.ts lines
65-100): each candidate is accepted, carved and recorded unless it
overlaps a previously accepted room.  The candidate list stands for the
sequence of random rooms drawn by the bounded-attempt loops. -/
def generateRoomsAux : List Room → List Room → TileGrid → List Room × TileGrid
  | [], rooms, tiles => (rooms, tiles)
  | cand :: rest, rooms, tiles =>
    if ∃ room ∈ rooms, roomsOverlap cand room then
      generateRoomsAux rest rooms tiles
    else
      generateRoomsAux rest (rooms ++ [cand]) (carveRoom cand tiles)

/-- One iteration of connectRooms (DungeonGenerator.ts lines 125-132):
carve an L-shaped corridor between the centers of two consecutive rooms,
horizontal-first or vertical-first according to the coin flip. -/
def connectPair (gridWidth gridHeight : Nat) (horizontalFirst : Bool)
    (roomA roomB : Room) (tiles : TileGrid) : TileGrid :=
  if horizontalFirst then
    carveVerticalCorridor gridWidth gridHeight roomA.centerY roomB.centerY roomB.centerX
      (carveHorizontalCorridor gridWidth gridHeight roomA.centerX roomB.centerX
        roomA.centerY tiles)
  else
    carveHorizontalCorridor gridWidth gridHeight roomA.centerX roomB.centerX roomB.centerY
      (carveVerticalCorridor gridWidth gridHeight roomA.centerY roomB.centerY
        roomA.centerX tiles)

/-- The loop of connectRooms (DungeonGenerator.ts lines 120-134), written
with the previous room threaded through; `dirs i` is the coin flip of
iteration i. -/
def connectRoomsAux (gridWidth gridHeight : Nat) (dirs : Nat → Bool) :
    Nat → Room → List Room → TileGrid → TileGrid
  | _, _, [], tiles => tiles
  | i, prev, roomB :: rest, tiles =>
    connectRoomsAux gridWidth gridHeight dirs (i + 1) roomB rest
      (connectPair gridWidth gridHeight (dirs i) prev roomB tiles)

/-- connectRooms (DungeonGenerator.ts lines 120-134): connect consecutive
rooms in placement order; with fewer than two rooms nothing is carved. -/
def connectRooms (gridWidth gridHeight : Nat) (dirs : Nat → Bool)
    (rooms : List Room) (tiles : TileGrid) : TileGrid :=
  match rooms with
  | [] => tiles
  | r0 :: rest => connectRoomsAux gridWidth gridHeight dirs 1 r0 rest tiles

/-- generate (DungeonGenerator.ts lines 42-56), up to the engine-side
tilemap materialization: initialize walls, place and carve rooms, then
carve corridors; returns the room list and the tile grid. -/
def generate (gridWidth gridHeight : Nat) (cands : List Room) (dirs : Nat → Bool) :
    List Room × TileGrid :=
  let p := generateRoomsAux cands [] initTiles
  (p.1, connectRooms gridWidth gridHeight dirs p.1 p.2)

/-- getSpawnPoint (DungeonGenerator.ts lines 221-228), with the unguarded
room-0 index modelled as an Option. -/
def getSpawnPoint (rooms : List Room) : Option (Nat × Nat) :=
  rooms.head?.map fun firstRoom => (firstRoom.centerX, firstRoom.centerY)

/-- getLastRoomCenter (DungeonGenerator.ts lines 233-239), with the
unguarded last index modelled as an Option. -/
def getLastRoomCenter (rooms : List Room) : Option (Nat × Nat) :=
  rooms.getLast?.map fun lastRoom => (lastRoom.centerX, lastRoom.centerY)

/-- The range contract of the Phaser.Math.Between draws in generateRooms
(DungeonGenerator.ts lines 69-72) together with the center fields of the
room literal: sizes at least 4 within the floor-scaled caps, position at
least 1 with the room ending strictly before the far border. -/
def candInRange (gridWidth gridHeight floorNum : Nat) (r : Room) : Prop :=
  4 ≤ r.width ∧ r.width ≤ 8 + floorNum / 3 ∧
    4 ≤ r.height ∧ r.height ≤ 6 + floorNum / 3 ∧
    1 ≤ r.x ∧ r.x + r.width + 1 ≤ gridWidth ∧
    1 ≤ r.y ∧ r.y + r.height + 1 ≤ gridHeight ∧
    r.centerX = r.x + r.width / 2 ∧ r.centerY = r.y + r.height / 2

instance (gridWidth gridHeight floorNum : Nat) (r : Room) :
    Decidable (candInRange gridWidth gridHeight floorNum r) := by
  unfold candInRange
  infer_instance

/-! ### Floor-tile connectivity -/

/-- A tile position (tx, ty) carries Floor. -/
def isFloorTile (tiles : TileGrid) (p : Nat × Nat) : Prop :=
  tiles p.2 p.1 = 0

/-- Four-neighbour adjacency of tile positions. -/
def Adjacent (p q : Nat × Nat) : Prop :=
  (p.1 = q.1 ∧ (p.2 + 1 = q.2 ∨ q.2 + 1 = p.2)) ∨
    (p.2 = q.2 ∧ (p.1 + 1 = q.1 ∨ q.1 + 1 = p.1))

/-- A single move between adjacent Floor tiles. -/
def FloorStep (tiles : TileGrid) (p q : Nat × Nat) : Prop :=
  Adjacent p q ∧ isFloorTile tiles p ∧ isFloorTile tiles q

/-- Reachability through carved Floor tiles. -/
def FloorConnected (tiles : TileGrid) (p q : Nat × Nat) : Prop :=
  Relation.ReflTransGen (FloorStep tiles) p q

/-- Membership of a tile position in a room rectangle. -/
def inRoomRect (r : Room) (tx ty : Nat) : Prop :=
  r.x ≤ tx ∧ tx < r.x + r.width ∧ r.y ≤ ty ∧ ty < r.y + r.height

instance (r : Room) (tx ty : Nat) : Decidable (inRoomRect r tx ty) := by
  unfold inRoomRect
  infer_instance

/-- Grid refinement: every Floor tile of the first grid is Floor in the
second (carving only ever adds Floor). -/
def FloorLE (t1 t2 : TileGrid) : Prop :=
  ∀ ty tx, t1 ty tx = 0 → t2 ty tx = 0

/-! ### Floor / run controller (GameScene, src/unnamed/part_002)

The scene is a single-threaded reactive loop: Phaser delivers collision
and update callbacks, and the React host delivers the external commands
proceed-to-next-floor and restart-game (part_002 lines 427-442), both of
which call this.scene.restart.  While the scene is paused
(this.scene.pause(), part_002 line 290) the engine delivers no further
callbacks; the external restart commands still act.  Randomness read by
a handler arrives as command payloads. -/

/-- ItemType (Item.ts line 3). -/
inductive ItemType
  | weapon
  | armor
  deriving DecidableEq, Repr

/-- ItemData (Item.ts lines 5-13). -/
structure ItemData where
  name : String
  rarity : Rarity
  itemType : ItemType
  attack : ℤ
  defense : ℤ
  description : String
  floorObtained : Nat
  deriving DecidableEq, Repr

/-- maxDropsPerFloor (part_002 line 21); never reassigned. -/
def maxDropsPerFloor : Nat := 2

/-- The GameScene fields the claims concern (part_002 lines 10-31),
plus the paused flag of the underlying Phaser scene. -/
structure SceneState where
  player : PlayerState
  currentFloor : Nat
  dropsThisFloor : Nat
  pendingItems : List ItemData
  gate : Bool
  gateSpawned : Bool
  enemiesAlive : Nat
  paused : Bool
  deriving DecidableEq, Repr

/-- Signals emitted through the EventBus, plus the world-side item spawn
performed by spawnItemFromEnemy (modelled as an observable action
carrying the generated rarity). -/
inductive GameEvent
  | playerStatsUpdate (health maxHealth attack defense : ℤ) (floorNum : Nat)
  | gateSpawnedSignal (floorNum : Nat)
  | itemDropSpawned (rarity : Rarity)
  | itemCollected (item : ItemData)
  | floorTransition (floorNum : Nat) (pendingItems : List ItemData) (attack defense : ℤ)
  | playerDied (pendingItems : List ItemData)
  deriving DecidableEq, Repr

/-- Engine callbacks and external commands delivered to the scene; the
payloads carry the data each handler reads from the engine or from
Math.random. -/
inductive Cmd
  | collideEnemy (now enemyAttack : ℤ)
  | killEnemy (dropRoll : Bool) (enemyRarity : EnemyRarity) (itemRoll : Nat)
  | pickupItem (item : ItemData)
  | updateTick
  | touchGate
  | proceedNextFloor (bonusAttack bonusDefense : ℤ) (enemyCount : Nat)
  | restartGame (bonusAttack bonusDefense : ℤ) (enemyCount : Nat)
  deriving DecidableEq, Repr

/-- The player-stats-update payload (part_002 lines 279-285). -/
def statsUpdate (s : SceneState) : GameEvent :=
  .playerStatsUpdate s.player.health s.player.maxHealth s.player.attack
    s.player.defense s.currentFloor

/-- Scene initialization: init plus create (part_002 lines 37-70):
transient floor state reset, fresh player with equipment bonuses applied
via setBaseStats (Player.ts lines 39-42), enemies spawned. -/
def initScene (floorNum : Nat) (pending : List ItemData)
    (bonusAttack bonusDefense : ℤ) (enemyCount : Nat) : SceneState :=
  { player := { health := 100, maxHealth := 100, attack := 25 + bonusAttack,
                defense := 0 + bonusDefense, lastDamageTime := 0 },
    currentFloor := floorNum,
    dropsThisFloor := 0,
    pendingItems := pending,
    gate := false,
    gateSpawned := false,
    enemiesAlive := enemyCount,
    paused := false }

/-- Commands that invoke this.scene.restart (proceedToNextFloor and
restartGame, part_002 lines 427-442). -/
def isSceneRestart : Cmd → Bool
  | .proceedNextFloor _ _ _ => true
  | .restartGame _ _ _ => true
  | _ => false

/-- One delivered command: the corresponding handler of part_002.
collideEnemy is handlePlayerEnemyCollision (lines 250-292); killEnemy is
the death branch of performAttack followed by spawnItemFromEnemy (lines
367-371 and 377-388); pickupItem is handleItemPickup (lines 390-422);
updateTick is the gate check of update (lines 173-176) with spawnGate
(lines 198-230); touchGate is handleGateCollision (lines 232-248);
the two restart commands are proceedToNextFloor and restartGame
(lines 427-442). -/
def sceneStep (s : SceneState) (c : Cmd) : SceneState × List GameEvent :=
  match c with
  | .proceedNextFloor bonusAttack bonusDefense enemyCount =>
    (initScene (s.currentFloor + 1) [] bonusAttack bonusDefense enemyCount, [])
  | .restartGame bonusAttack bonusDefense enemyCount =>
    (initScene 1 [] bonusAttack bonusDefense enemyCount, [])
  | .collideEnemy now enemyAttack =>
    if s.paused then (s, [])
    else
      let p := playerTakeDamage s.player now enemyAttack
      let s1 := { s with player := p }
      if p.health ≤ 0 then
        ({ s1 with paused := true },
         [statsUpdate s1, GameEvent.playerDied s.pendingItems])
      else (s1, [statsUpdate s1])
  | .killEnemy dropRoll enemyRarity itemRoll =>
    if s.paused then (s, [])
    else
      let s1 := { s with enemiesAlive := s.enemiesAlive - 1 }
      if dropRoll = true ∧ s.dropsThisFloor < maxDropsPerFloor then
        ({ s1 with dropsThisFloor := s.dropsThisFloor + 1 },
         [GameEvent.itemDropSpawned
            (generateItemRarity (getMinDropRarity enemyRarity) itemRoll)])
      else (s1, [])
  | .pickupItem item =>
    if s.paused then (s, [])
    else
      let s1 := { s with pendingItems := s.pendingItems ++ [item] }
      (s1, [statsUpdate s1, GameEvent.itemCollected item])
  | .updateTick =>
    if s.paused then (s, [])
    else if s.gateSpawned = false ∧ s.enemiesAlive = 0 then
      ({ s with gateSpawned := true, gate := true },
       [GameEvent.gateSpawnedSignal s.currentFloor])
    else (s, [])
  | .touchGate =>
    if s.paused then (s, [])
    else if s.gate = true then
      ({ s with gate := false },
       [GameEvent.floorTransition s.currentFloor s.pendingItems
          s.player.attack s.player.defense])
    else (s, [])

/-- Deliver a list of commands in order, collecting emitted events. -/
def sceneRun (s : SceneState) : List Cmd → SceneState × List GameEvent
  | [] => (s, [])
  | c :: cs =>
    let p := sceneStep s c
    let q := sceneRun p.1 cs
    (q.1, p.2 ++ q.2)

/-- Recognize the world-side item spawn events. -/
def isDropEvent : GameEvent → Bool
  | .itemDropSpawned _ => true
  | _ => false

/-- Recognize floor-transition events. -/
def isFloorTransitionEvent : GameEvent → Bool
  | .floorTransition _ _ _ _ => true
  | _ => false

/-- The number of gate spawns still possible plus gates present; strictly
decreased by every emitted floor transition. -/
def gateTokens (s : SceneState) : Nat :=
  (if s.gate then 1 else 0) + (if s.gateSpawned then 0 else 1)

/-! ### Claim theorems: C4, C7, C8, C10 -/

/-- Claim C4: whenever the player takes a hit (the 500 ms cooldown has
elapsed), playerTakeDamage reduces health by exactly
max(1, incoming - defense), clamped so health does not go below 0; the
subtracted amount is at least 1 (never 0 or negative), so positive health
strictly decreases. -/
theorem player_takeDamage_absorption (p : PlayerState) (now incoming : ℤ)
    (hcd : damageCooldown ≤ now - p.lastDamageTime) :
    (playerTakeDamage p now incoming).health
        = max 0 (p.health - max 1 (incoming - p.defense)) ∧
      1 ≤ max 1 (incoming - p.defense) ∧
      (0 < p.health → (playerTakeDamage p now incoming).health < p.health) := by
  have hnot : ¬ now - p.lastDamageTime < damageCooldown := not_lt.mpr hcd
  refine ⟨?_, le_max_left _ _, ?_⟩
  · simp [playerTakeDamage, hnot]
  · intro hpos
    simp only [playerTakeDamage, hnot, if_false]
    have h1 : (1 : ℤ) ≤ max 1 (incoming - p.defense) := le_max_left _ _
    omega

/-- Witness for C4: a player with defense 10 hit for 5 damage after the
cooldown loses exactly 1 health (100 to 99). -/
theorem player_takeDamage_absorption_witness :
    (playerTakeDamage ⟨100, 100, 25, 10, 0⟩ 500 5).health
        = max 0 ((100 : ℤ) - max 1 (5 - 10)) ∧
      (1 : ℤ) ≤ max 1 ((5 : ℤ) - 10) ∧
      ((0 : ℤ) < 100 → (playerTakeDamage ⟨100, 100, 25, 10, 0⟩ 500 5).health < 100) :=
  player_takeDamage_absorption ⟨100, 100, 25, 10, 0⟩ 500 5 (by decide)

/-- Claim C7: for every minimum rarity m and every roll, the rarity
produced by Item.generateItemData has index at least idx m in the order
common < uncommon < rare < epic < legendary; in particular this holds
when the controller passes the dying enemy's getMinDropRarity as m. -/
theorem generateItemRarity_ge_min (m : Rarity) (roll : Nat) :
    m.idx ≤ (generateItemRarity m roll).idx := by
  simp only [generateItemRarity]
  by_cases h : (rollItemRarityFrom roll 0 RARITY_WEIGHTS).idx < m.idx
  · simp [h]
  · simp [h]
    omega

/-- Claim C10: for every base size and floor index, the generated grid
dimensions never exceed the configured maximum of 45 x 35. -/
theorem dungeon_dimensions_capped (baseWidth baseHeight floorNum : Nat) :
    dungeonWidth baseWidth floorNum ≤ 45 ∧ dungeonHeight baseHeight floorNum ≤ 35 :=
  ⟨min_le_left _ _, min_le_left _ _⟩

/-- Claim C8: for a fixed rarity tier, enemy maxHealth and attack are
monotonically non-decreasing in the floor index. -/
theorem enemy_stats_monotone (r : EnemyRarity) (f1 f2 : Nat)
    (_hf1 : 1 ≤ f1) (h : f1 ≤ f2) :
    enemyMaxHealth f1 r ≤ enemyMaxHealth f2 r ∧
      enemyAttack f1 r ≤ enemyAttack f2 r := by
  have hsub : f1 - 1 ≤ f2 - 1 := Nat.sub_le_sub_right h 1
  have hhp : (0 : ℚ) ≤ (RARITY_MULTIPLIERS r).hp := by
    cases r <;> norm_num [RARITY_MULTIPLIERS]
  have hatk : (0 : ℚ) ≤ (RARITY_MULTIPLIERS r).attack := by
    cases r <;> norm_num [RARITY_MULTIPLIERS]
  constructor
  · apply Int.floor_le_floor
    have hpow : ((3 : ℚ) / 2) ^ (f1 - 1) ≤ ((3 : ℚ) / 2) ^ (f2 - 1) :=
      pow_le_pow_right₀ (by norm_num) hsub
    have hm := mul_le_mul_of_nonneg_right hpow hhp
    unfold enemyMaxHealth at *
    linarith
  · apply Int.floor_le_floor
    have hpow : ((13 : ℚ) / 10) ^ (f1 - 1) ≤ ((13 : ℚ) / 10) ^ (f2 - 1) :=
      pow_le_pow_right₀ (by norm_num) hsub
    have hm := mul_le_mul_of_nonneg_right hpow hatk
    unfold enemyAttack at *
    linarith

/-- Witness for C8: a normal enemy on floor 2 has at least the health and
attack of one on floor 1. -/
theorem enemy_stats_monotone_witness :
    enemyMaxHealth 1 EnemyRarity.normal ≤ enemyMaxHealth 2 EnemyRarity.normal ∧
      enemyAttack 1 EnemyRarity.normal ≤ enemyAttack 2 EnemyRarity.normal :=
  enemy_stats_monotone EnemyRarity.normal 1 2 (by decide) (by decide)

/-! ### Carving monotonicity -/

theorem floorLE_refl (t : TileGrid) : FloorLE t t :=
  fun _ _ h => h

theorem floorLE_trans {t1 t2 t3 : TileGrid} (h12 : FloorLE t1 t2)
    (h23 : FloorLE t2 t3) : FloorLE t1 t3 :=
  fun ty tx h => h23 ty tx (h12 ty tx h)

theorem carveRoom_floorLE (room : Room) (t : TileGrid) :
    FloorLE t (carveRoom room t) := by
  intro ty tx h
  unfold carveRoom
  split
  · rfl
  · exact h

theorem carveHorizontalCorridor_floorLE (gw gh x1 x2 yc : Nat) (t : TileGrid) :
    FloorLE t (carveHorizontalCorridor gw gh x1 x2 yc t) := by
  intro ty tx h
  unfold carveHorizontalCorridor
  split
  · rfl
  · exact h

theorem carveVerticalCorridor_floorLE (gw gh y1 y2 xc : Nat) (t : TileGrid) :
    FloorLE t (carveVerticalCorridor gw gh y1 y2 xc t) := by
  intro ty tx h
  unfold carveVerticalCorridor
  split
  · rfl
  · exact h

theorem connectPair_floorLE (gw gh : Nat) (dir : Bool) (roomA roomB : Room)
    (t : TileGrid) : FloorLE t (connectPair gw gh dir roomA roomB t) := by
  unfold connectPair
  cases dir
  · simp only [Bool.false_eq_true, if_false]
    exact floorLE_trans (carveVerticalCorridor_floorLE _ _ _ _ _ _)
      (carveHorizontalCorridor_floorLE _ _ _ _ _ _)
  · simp only [if_true]
    exact floorLE_trans (carveHorizontalCorridor_floorLE _ _ _ _ _ _)
      (carveVerticalCorridor_floorLE _ _ _ _ _ _)

theorem connectRoomsAux_floorLE (gw gh : Nat) (dirs : Nat → Bool) :
    ∀ (rest : List Room) (i : Nat) (prev : Room) (t : TileGrid),
      FloorLE t (connectRoomsAux gw gh dirs i prev rest t)
  | [], _, _, t => floorLE_refl t
  | _ :: rest, i, prev, t =>
    floorLE_trans (connectPair_floorLE gw gh (dirs i) prev _ t)
      (connectRoomsAux_floorLE gw gh dirs rest (i + 1) _ _)

theorem connectRooms_floorLE (gw gh : Nat) (dirs : Nat → Bool)
    (rooms : List Room) (t : TileGrid) :
    FloorLE t (connectRooms gw gh dirs rooms t) := by
  cases rooms with
  | nil => exact floorLE_refl t
  | cons r0 rest => exact connectRoomsAux_floorLE gw gh dirs rest 1 r0 t

theorem generateRoomsAux_floorLE :
    ∀ (cands acc : List Room) (t : TileGrid),
      FloorLE t (generateRoomsAux cands acc t).2
  | [], _, t => floorLE_refl t
  | cand :: rest, acc, t => by
    unfold generateRoomsAux
    split
    · exact generateRoomsAux_floorLE rest acc t
    · exact floorLE_trans (carveRoom_floorLE cand t)
        (generateRoomsAux_floorLE rest (acc ++ [cand]) (carveRoom cand t))

/-! ### Connectivity toolkit -/

theorem adjacent_symm {p q : Nat × Nat} (h : Adjacent p q) : Adjacent q p := by
  unfold Adjacent at h ⊢
  tauto

theorem floorStep_symm (t : TileGrid) : Symmetric (FloorStep t) :=
  fun _ _ h => ⟨adjacent_symm h.1, h.2.2, h.2.1⟩

theorem floorConnected_symm {t : TileGrid} {p q : Nat × Nat}
    (h : FloorConnected t p q) : FloorConnected t q p :=
  Relation.ReflTransGen.symmetric (floorStep_symm t) h

theorem floorConnected_trans {t : TileGrid} {p q s : Nat × Nat}
    (h1 : FloorConnected t p q) (h2 : FloorConnected t q s) :
    FloorConnected t p s :=
  Relation.ReflTransGen.trans h1 h2

theorem floorConnected_mono {t1 t2 : TileGrid} (h : FloorLE t1 t2)
    {p q : Nat × Nat} (hc : FloorConnected t1 p q) : FloorConnected t2 p q :=
  Relation.ReflTransGen.mono
    (fun _ _ hab => ⟨hab.1, h _ _ hab.2.1, h _ _ hab.2.2⟩) hc

theorem floorConnected_horizontal (t : TileGrid) (yc a b : Nat) (hab : a ≤ b)
    (hf : ∀ tx, a ≤ tx → tx ≤ b → t yc tx = 0) :
    FloorConnected t (a, yc) (b, yc) := by
  induction b, hab using Nat.le_induction with
  | base => exact Relation.ReflTransGen.refl
  | succ n hn ih =>
    have hprev : FloorConnected t (a, yc) (n, yc) :=
      ih fun tx h1 h2 => hf tx h1 (h2.trans (Nat.le_succ n))
    refine Relation.ReflTransGen.tail hprev ?_
    refine ⟨Or.inr ⟨rfl, Or.inl rfl⟩, ?_, ?_⟩
    · exact hf n hn (Nat.le_succ n)
    · exact hf (n + 1) (hn.trans (Nat.le_succ n)) le_rfl

theorem floorConnected_vertical (t : TileGrid) (xc a b : Nat) (hab : a ≤ b)
    (hf : ∀ ty, a ≤ ty → ty ≤ b → t ty xc = 0) :
    FloorConnected t (xc, a) (xc, b) := by
  induction b, hab using Nat.le_induction with
  | base => exact Relation.ReflTransGen.refl
  | succ n hn ih =>
    have hprev : FloorConnected t (xc, a) (xc, n) :=
      ih fun ty h1 h2 => hf ty h1 (h2.trans (Nat.le_succ n))
    refine Relation.ReflTransGen.tail hprev ?_
    refine ⟨Or.inl ⟨rfl, Or.inl rfl⟩, ?_, ?_⟩
    · exact hf n hn (Nat.le_succ n)
    · exact hf (n + 1) (hn.trans (Nat.le_succ n)) le_rfl

theorem floorConnected_horizontal_any (t : TileGrid) (yc x1 x2 : Nat)
    (hf : ∀ tx, min x1 x2 ≤ tx → tx ≤ max x1 x2 → t yc tx = 0) :
    FloorConnected t (x1, yc) (x2, yc) := by
  rcases Nat.le_total x1 x2 with h | h
  · rw [Nat.min_eq_left h, Nat.max_eq_right h] at hf
    exact floorConnected_horizontal t yc x1 x2 h hf
  · rw [Nat.min_eq_right h, Nat.max_eq_left h] at hf
    exact floorConnected_symm (floorConnected_horizontal t yc x2 x1 h hf)

theorem floorConnected_vertical_any (t : TileGrid) (xc y1 y2 : Nat)
    (hf : ∀ ty, min y1 y2 ≤ ty → ty ≤ max y1 y2 → t ty xc = 0) :
    FloorConnected t (xc, y1) (xc, y2) := by
  rcases Nat.le_total y1 y2 with h | h
  · rw [Nat.min_eq_left h, Nat.max_eq_right h] at hf
    exact floorConnected_vertical t xc y1 y2 h hf
  · rw [Nat.min_eq_right h, Nat.max_eq_left h] at hf
    exact floorConnected_symm (floorConnected_vertical t xc y2 y1 h hf)

theorem carveHorizontalCorridor_floor (gw gh x1 x2 yc : Nat) (t : TileGrid)
    (hy : yc < gh) (tx : Nat) (h1 : min x1 x2 ≤ tx) (h2 : tx ≤ max x1 x2)
    (hx : tx < gw) :
    carveHorizontalCorridor gw gh x1 x2 yc t yc tx = 0 := by
  unfold carveHorizontalCorridor
  simp [h1, h2, hy, hx]

theorem carveVerticalCorridor_floor (gw gh y1 y2 xc : Nat) (t : TileGrid)
    (hx : xc < gw) (ty : Nat) (h1 : min y1 y2 ≤ ty) (h2 : ty ≤ max y1 y2)
    (hy : ty < gh) :
    carveVerticalCorridor gw gh y1 y2 xc t ty xc = 0 := by
  unfold carveVerticalCorridor
  simp [h1, h2, hy, hx]

theorem carveHorizontalCorridor_connects (gw gh x1 x2 yc : Nat) (t : TileGrid)
    (hy : yc < gh) (hx1 : x1 < gw) (hx2 : x2 < gw) :
    FloorConnected (carveHorizontalCorridor gw gh x1 x2 yc t) (x1, yc) (x2, yc) := by
  apply floorConnected_horizontal_any
  intro tx h1 h2
  have hx : tx < gw := lt_of_le_of_lt h2 (max_lt hx1 hx2)
  exact carveHorizontalCorridor_floor gw gh x1 x2 yc t hy tx h1 h2 hx

theorem carveVerticalCorridor_connects (gw gh y1 y2 xc : Nat) (t : TileGrid)
    (hx : xc < gw) (hy1 : y1 < gh) (hy2 : y2 < gh) :
    FloorConnected (carveVerticalCorridor gw gh y1 y2 xc t) (xc, y1) (xc, y2) := by
  apply floorConnected_vertical_any
  intro ty h1 h2
  have hy : ty < gh := lt_of_le_of_lt h2 (max_lt hy1 hy2)
  exact carveVerticalCorridor_floor gw gh y1 y2 xc t hx ty h1 h2 hy

theorem connectPair_connects (gw gh : Nat) (dir : Bool) (roomA roomB : Room)
    (t : TileGrid)
    (hAx : roomA.centerX < gw) (hAy : roomA.centerY < gh)
    (hBx : roomB.centerX < gw) (hBy : roomB.centerY < gh) :
    FloorConnected (connectPair gw gh dir roomA roomB t)
      (roomA.centerX, roomA.centerY) (roomB.centerX, roomB.centerY) := by
  unfold connectPair
  cases dir
  · simp only [Bool.false_eq_true, if_false]
    have hv : FloorConnected
        (carveVerticalCorridor gw gh roomA.centerY roomB.centerY roomA.centerX t)
        (roomA.centerX, roomA.centerY) (roomA.centerX, roomB.centerY) :=
      carveVerticalCorridor_connects gw gh _ _ _ t hAx hAy hBy
    have hv2 := floorConnected_mono
      (carveHorizontalCorridor_floorLE gw gh roomA.centerX roomB.centerX roomB.centerY _) hv
    have hh : FloorConnected
        (carveHorizontalCorridor gw gh roomA.centerX roomB.centerX roomB.centerY
          (carveVerticalCorridor gw gh roomA.centerY roomB.centerY roomA.centerX t))
        (roomA.centerX, roomB.centerY) (roomB.centerX, roomB.centerY) :=
      carveHorizontalCorridor_connects gw gh _ _ _ _ hBy hAx hBx
    exact floorConnected_trans hv2 hh
  · simp only [if_true]
    have hh : FloorConnected
        (carveHorizontalCorridor gw gh roomA.centerX roomB.centerX roomA.centerY t)
        (roomA.centerX, roomA.centerY) (roomB.centerX, roomA.centerY) :=
      carveHorizontalCorridor_connects gw gh _ _ _ t hAy hAx hBx
    have hh2 := floorConnected_mono
      (carveVerticalCorridor_floorLE gw gh roomA.centerY roomB.centerY roomB.centerX _) hh
    have hv : FloorConnected
        (carveVerticalCorridor gw gh roomA.centerY roomB.centerY roomB.centerX
          (carveHorizontalCorridor gw gh roomA.centerX roomB.centerX roomA.centerY t))
        (roomB.centerX, roomA.centerY) (roomB.centerX, roomB.centerY) :=
      carveVerticalCorridor_connects gw gh _ _ _ _ hBx hAy hBy
    exact floorConnected_trans hh2 hv

/-- Position of a room center as a tile pair. -/
def roomCenter (r : Room) : Nat × Nat := (r.centerX, r.centerY)

/-- Center coordinates lie inside the grid. -/
def centerInBounds (gw gh : Nat) (r : Room) : Prop :=
  r.centerX < gw ∧ r.centerY < gh

theorem connectRoomsAux_connects (gw gh : Nat) (dirs : Nat → Bool) :
    ∀ (rest : List Room) (i : Nat) (prev : Room) (t : TileGrid),
      centerInBounds gw gh prev → (∀ r ∈ rest, centerInBounds gw gh r) →
      ∀ r ∈ prev :: rest,
        FloorConnected (connectRoomsAux gw gh dirs i prev rest t)
          (roomCenter r) (roomCenter prev) := by
  intro rest
  induction rest with
  | nil =>
    intro i prev t _ _ r hr
    rcases List.mem_cons.mp hr with h | h
    · subst h
      exact Relation.ReflTransGen.refl
    · cases h
  | cons roomB rest2 ih =>
    intro i prev t hprev hrest r hr
    have hB : centerInBounds gw gh roomB := hrest roomB (List.mem_cons_self _ _)
    have hrest2 : ∀ x ∈ rest2, centerInBounds gw gh x :=
      fun x hx => hrest x (List.mem_cons_of_mem _ hx)
    have hpair : FloorConnected (connectPair gw gh (dirs i) prev roomB t)
        (roomCenter prev) (roomCenter roomB) :=
      connectPair_connects gw gh (dirs i) prev roomB t hprev.1 hprev.2 hB.1 hB.2
    have hpair2 : FloorConnected
        (connectRoomsAux gw gh dirs (i + 1) roomB rest2
          (connectPair gw gh (dirs i) prev roomB t))
        (roomCenter prev) (roomCenter roomB) :=
      floorConnected_mono (connectRoomsAux_floorLE gw gh dirs rest2 (i + 1) roomB _) hpair
    show FloorConnected (connectRoomsAux gw gh dirs (i + 1) roomB rest2
        (connectPair gw gh (dirs i) prev roomB t)) (roomCenter r) (roomCenter prev)
    rcases List.mem_cons.mp hr with h | hr2
    · subst h
      exact Relation.ReflTransGen.refl
    · have hx := ih (i + 1) roomB (connectPair gw gh (dirs i) prev roomB t) hB hrest2 r hr2
      exact floorConnected_trans hx (floorConnected_symm hpair2)

theorem connectRooms_connects (gw gh : Nat) (dirs : Nat → Bool)
    (r0 : Room) (rest : List Room) (t : TileGrid)
    (hall : ∀ r ∈ r0 :: rest, centerInBounds gw gh r) :
    ∀ r ∈ r0 :: rest,
      FloorConnected (connectRooms gw gh dirs (r0 :: rest) t)
        (roomCenter r) (roomCenter r0) := by
  have h0 : centerInBounds gw gh r0 := hall r0 (List.mem_cons_self _ _)
  have hrest : ∀ r ∈ rest, centerInBounds gw gh r :=
    fun r hr => hall r (List.mem_cons_of_mem _ hr)
  exact connectRoomsAux_connects gw gh dirs rest 1 r0 t h0 hrest

theorem floorConnected_in_rect (t : TileGrid) (r : Room)
    (hf : ∀ ty tx, inRoomRect r tx ty → t ty tx = 0)
    (px py qx qy : Nat) (hp : inRoomRect r px py) (hq : inRoomRect r qx qy) :
    FloorConnected t (px, py) (qx, qy) := by
  obtain ⟨hpx1, hpx2, hpy1, hpy2⟩ := hp
  obtain ⟨hqx1, hqx2, hqy1, hqy2⟩ := hq
  have hrow : FloorConnected t (px, py) (qx, py) := by
    apply floorConnected_horizontal_any
    intro tx h1 h2
    apply hf
    refine ⟨?_, ?_, hpy1, hpy2⟩
    · exact le_trans (le_min hpx1 hqx1) h1
    · exact lt_of_le_of_lt h2 (max_lt hpx2 hqx2)
  have hcol : FloorConnected t (qx, py) (qx, qy) := by
    apply floorConnected_vertical_any
    intro ty h1 h2
    apply hf
    refine ⟨hqx1, hqx2, ?_, ?_⟩
    · exact le_trans (le_min hpy1 hqy1) h1
    · exact lt_of_le_of_lt h2 (max_lt hpy2 hqy2)
  exact floorConnected_trans hrow hcol

/-! ### Room placement invariants -/

theorem roomsOverlap_symm_iff (a b : Room) : roomsOverlap a b ↔ roomsOverlap b a := by
  unfold roomsOverlap
  omega

theorem generateRoomsAux_mem :
    ∀ (cands acc : List Room) (t : TileGrid),
      ∀ r ∈ (generateRoomsAux cands acc t).1, r ∈ acc ∨ r ∈ cands
  | [], acc, t => by
    intro r hr
    exact Or.inl hr
  | cand :: rest, acc, t => by
    intro r hr
    unfold generateRoomsAux at hr
    split at hr
    · rcases generateRoomsAux_mem rest acc t r hr with h | h
      · exact Or.inl h
      · exact Or.inr (List.mem_cons_of_mem _ h)
    · rcases generateRoomsAux_mem rest (acc ++ [cand]) (carveRoom cand t) r hr with h | h
      · rcases List.mem_append.mp h with h2 | h2
        · exact Or.inl h2
        · exact Or.inr (by simp at h2; simp [h2])
      · exact Or.inr (List.mem_cons_of_mem _ h)

theorem generateRoomsAux_acc_prefix :
    ∀ (cands acc : List Room) (t : TileGrid),
      ∃ extra, (generateRoomsAux cands acc t).1 = acc ++ extra
  | [], acc, t => ⟨[], by simp [generateRoomsAux]⟩
  | cand :: rest, acc, t => by
    unfold generateRoomsAux
    split
    · exact generateRoomsAux_acc_prefix rest acc t
    · obtain ⟨extra, hx⟩ :=
        generateRoomsAux_acc_prefix rest (acc ++ [cand]) (carveRoom cand t)
      exact ⟨cand :: extra, by simp [hx]⟩

theorem carveRoom_floor (room : Room) (t : TileGrid) (ty tx : Nat)
    (h : inRoomRect room tx ty) : carveRoom room t ty tx = 0 := by
  obtain ⟨h1, h2, h3, h4⟩ := h
  unfold carveRoom
  simp [h1, h2, h3, h4]

theorem generateRoomsAux_carved :
    ∀ (cands acc : List Room) (t : TileGrid),
      (∀ r ∈ acc, ∀ ty tx, inRoomRect r tx ty → t ty tx = 0) →
      ∀ r ∈ (generateRoomsAux cands acc t).1, ∀ ty tx, inRoomRect r tx ty →
        (generateRoomsAux cands acc t).2 ty tx = 0
  | [], acc, t => by
    intro hacc r hr ty tx hin
    exact hacc r hr ty tx hin
  | cand :: rest, acc, t => by
    intro hacc
    unfold generateRoomsAux
    split
    · exact generateRoomsAux_carved rest acc t hacc
    · apply generateRoomsAux_carved rest (acc ++ [cand]) (carveRoom cand t)
      intro r hr ty tx hin
      rcases List.mem_append.mp hr with h | h
      · exact carveRoom_floorLE cand t ty tx (hacc r h ty tx hin)
      · have : r = cand := by simpa using h
        subst this
        exact carveRoom_floor r t ty tx hin

theorem generateRoomsAux_pairwise :
    ∀ (cands acc : List Room) (t : TileGrid),
      acc.Pairwise (fun a b => ¬ roomsOverlap b a) →
      (generateRoomsAux cands acc t).1.Pairwise (fun a b => ¬ roomsOverlap b a)
  | [], acc, t => fun hacc => hacc
  | cand :: rest, acc, t => by
    intro hacc
    unfold generateRoomsAux
    split
    · exact generateRoomsAux_pairwise rest acc t hacc
    · apply generateRoomsAux_pairwise rest (acc ++ [cand]) (carveRoom cand t)
      rw [List.pairwise_append]
      refine ⟨hacc, List.pairwise_singleton _ _, ?_⟩
      intro a ha b hb
      have hbc : b = cand := by simpa using hb
      subst hbc
      intro hover
      rename_i hnot
      exact hnot ⟨a, ha, hover⟩

/-- The center of an in-range candidate lies inside its own rectangle and
inside the grid. -/
theorem candInRange_center {gw gh fl : Nat} {r : Room}
    (h : candInRange gw gh fl r) :
    inRoomRect r r.centerX r.centerY ∧ centerInBounds gw gh r := by
  obtain ⟨h1, h2, h3, h4, h5, h6, h7, h8, h9, h10⟩ := h
  unfold inRoomRect centerInBounds
  omega

/-! ### Claim theorems: C1, C2, C3 -/

/-- Claim C2: every pair of distinct rooms accepted by generate satisfies
the expanded-bounding-box separation test: roomsOverlap is false on every
distinct accepted pair, so no two rooms touch. -/
theorem generate_rooms_separated (gw gh : Nat) (cands : List Room)
    (dirs : Nat → Bool) (i j : Nat)
    (hi : i < (generate gw gh cands dirs).1.length)
    (hj : j < (generate gw gh cands dirs).1.length)
    (hij : i ≠ j) :
    ¬ roomsOverlap ((generate gw gh cands dirs).1.get ⟨i, hi⟩)
        ((generate gw gh cands dirs).1.get ⟨j, hj⟩) := by
  have hpw : (generate gw gh cands dirs).1.Pairwise (fun a b => ¬ roomsOverlap b a) :=
    generateRoomsAux_pairwise cands [] initTiles List.Pairwise.nil
  have hget := List.pairwise_iff_get.mp hpw
  rcases Nat.lt_or_ge i j with hlt | hge
  · intro hover
    exact hget ⟨i, hi⟩ ⟨j, hj⟩ hlt ((roomsOverlap_symm_iff _ _).mp hover)
  · have hlt : j < i := lt_of_le_of_ne hge fun e => hij e.symm
    exact hget ⟨j, hj⟩ ⟨i, hi⟩ hlt

/-- Witness for C2: with two non-overlapping candidates both are accepted
and the separation test fails on the pair. -/
theorem generate_rooms_separated_witness :
    ¬ roomsOverlap
        ((generate 25 19 [mkRoom 4 4 1 1, mkRoom 4 4 10 10] (fun _ => true)).1.get
          ⟨0, by decide⟩)
        ((generate 25 19 [mkRoom 4 4 1 1, mkRoom 4 4 10 10] (fun _ => true)).1.get
          ⟨1, by decide⟩) :=
  generate_rooms_separated 25 19 [mkRoom 4 4 1 1, mkRoom 4 4 10 10] (fun _ => true)
    0 1 (by decide) (by decide) (by decide)

/-- Claim C3: when at least one candidate room is drawn, the first
placement attempt cannot fail the overlap check, so the room list of
generate is non-empty and both getSpawnPoint and getLastRoomCenter
return a value. -/
theorem generate_spawn_safe (gw gh : Nat) (cands : List Room)
    (dirs : Nat → Bool) (h : cands ≠ []) :
    (generate gw gh cands dirs).1 ≠ [] ∧
      (getSpawnPoint (generate gw gh cands dirs).1).isSome = true ∧
      (getLastRoomCenter (generate gw gh cands dirs).1).isSome = true := by
  obtain ⟨c, cs, rfl⟩ := List.exists_cons_of_ne_nil h
  have hne : (generate gw gh (c :: cs) dirs).1 ≠ [] := by
    show (generateRoomsAux (c :: cs) [] initTiles).1 ≠ []
    unfold generateRoomsAux
    have hnov : ¬ ∃ room ∈ ([] : List Room), roomsOverlap c room := by simp
    rw [if_neg hnov]
    obtain ⟨extra, hx⟩ :=
      generateRoomsAux_acc_prefix cs ([] ++ [c]) (carveRoom c initTiles)
    rw [hx]
    simp
  obtain ⟨a, as, hl⟩ := List.exists_cons_of_ne_nil hne
  refine ⟨hne, ?_, ?_⟩
  · unfold getSpawnPoint
    rw [hl]
    rfl
  · unfold getLastRoomCenter
    rw [hl]
    clear hl hne h
    induction as generalizing a with
    | nil => rfl
    | cons b bs ih =>
      rw [List.getLast?_cons_cons]
      exact ih b

/-- Witness for C3: a single candidate yields a non-empty room list with
spawn and gate queries defined. -/
theorem generate_spawn_safe_witness :
    (generate 25 19 [mkRoom 4 4 1 1] (fun _ => true)).1 ≠ [] ∧
      (getSpawnPoint (generate 25 19 [mkRoom 4 4 1 1] (fun _ => true)).1).isSome = true ∧
      (getLastRoomCenter (generate 25 19 [mkRoom 4 4 1 1] (fun _ => true)).1).isSome = true :=
  generate_spawn_safe 25 19 [mkRoom 4 4 1 1] (fun _ => true) (by decide)

/-- Claim C1: for every dungeon produced by generate from in-range
candidate rooms, the floor tiles of every placed room are connected
through carved Floor tiles to the floor tiles of the spawn room (room 0);
corridors carved between consecutive room centers, clipped to grid
bounds, provide the paths. -/
theorem generate_room_connectivity (gw gh floorNum : Nat) (cands : List Room)
    (dirs : Nat → Bool)
    (hv : ∀ c ∈ cands, candInRange gw gh floorNum c)
    (r0 : Room) (rest : List Room)
    (hrooms : (generate gw gh cands dirs).1 = r0 :: rest) :
    ∀ r ∈ (generate gw gh cands dirs).1, ∀ px py qx qy,
      inRoomRect r px py → inRoomRect r0 qx qy →
      FloorConnected (generate gw gh cands dirs).2 (px, py) (qx, qy) := by
  intro r hr px py qx qy hp hq
  have hmemv : ∀ s ∈ (generate gw gh cands dirs).1, candInRange gw gh floorNum s := by
    intro s hs
    rcases generateRoomsAux_mem cands [] initTiles s hs with h | h
    · cases h
    · exact hv s h
  have hbounds : ∀ s ∈ (generate gw gh cands dirs).1, centerInBounds gw gh s :=
    fun s hs => (candInRange_center (hmemv s hs)).2
  have hcarved0 : ∀ s ∈ (generate gw gh cands dirs).1, ∀ ty tx,
      inRoomRect s tx ty → (generateRoomsAux cands [] initTiles).2 ty tx = 0 := by
    intro s hs ty tx hin
    exact generateRoomsAux_carved cands [] initTiles (by intro x hx; cases hx) s hs ty tx hin
  have hfinal : (generate gw gh cands dirs).2
      = connectRooms gw gh dirs (generate gw gh cands dirs).1
          (generateRoomsAux cands [] initTiles).2 := by
    show (generate gw gh cands dirs).2
      = connectRooms gw gh dirs (generateRoomsAux cands [] initTiles).1
          (generateRoomsAux cands [] initTiles).2
    rfl
  have hLE : FloorLE (generateRoomsAux cands [] initTiles).2
      (generate gw gh cands dirs).2 := by
    rw [hfinal]
    exact connectRooms_floorLE gw gh dirs _ _
  have hcarved : ∀ s ∈ (generate gw gh cands dirs).1, ∀ ty tx,
      inRoomRect s tx ty → (generate gw gh cands dirs).2 ty tx = 0 := by
    intro s hs ty tx hin
    exact hLE ty tx (hcarved0 s hs ty tx hin)
  have hchain : FloorConnected (generate gw gh cands dirs).2
      (roomCenter r) (roomCenter r0) := by
    rw [hfinal, hrooms]
    apply connectRooms_connects gw gh dirs r0 rest _ (hrooms ▸ hbounds) r (hrooms ▸ hr)
  have hr0mem : r0 ∈ (generate gw gh cands dirs).1 := by
    rw [hrooms]
    exact List.mem_cons_self _ _
  have hcr : inRoomRect r r.centerX r.centerY := (candInRange_center (hmemv r hr)).1
  have hcr0 : inRoomRect r0 r0.centerX r0.centerY :=
    (candInRange_center (hmemv r0 hr0mem)).1
  have hto_center : FloorConnected (generate gw gh cands dirs).2 (px, py)
      (roomCenter r) :=
    floorConnected_in_rect _ r (fun ty tx hin => hcarved r hr ty tx hin)
      px py r.centerX r.centerY hp hcr
  have hfrom_center : FloorConnected (generate gw gh cands dirs).2 (roomCenter r0)
      (qx, qy) :=
    floorConnected_in_rect _ r0 (fun ty tx hin => hcarved r0 hr0mem ty tx hin)
      r0.centerX r0.centerY qx qy hcr0 hq
  exact floorConnected_trans (floorConnected_trans hto_center hchain) hfrom_center

/-- Witness for C1: two rooms on a 25 x 19 grid; a corner tile of the
second room connects to a corner tile of the spawn room. -/
theorem generate_room_connectivity_witness :
    FloorConnected (generate 25 19 [mkRoom 4 4 1 1, mkRoom 4 4 10 10] (fun _ => true)).2
      (10, 10) (1, 1) :=
  generate_room_connectivity 25 19 1 [mkRoom 4 4 1 1, mkRoom 4 4 10 10]
    (fun _ => true) (by decide) (mkRoom 4 4 1 1) [mkRoom 4 4 10 10] (by decide)
    (mkRoom 4 4 10 10) (by decide) 10 10 1 1 (by decide) (by decide)

/-! ### Controller lemmas -/

theorem sceneStep_paused (s : SceneState) (c : Cmd) (hp : s.paused = true)
    (hc : isSceneRestart c = false) : sceneStep s c = (s, []) := by
  cases c <;> simp_all [sceneStep, isSceneRestart]

theorem sceneRun_paused (s : SceneState) (cs : List Cmd) (hp : s.paused = true)
    (hnr : ∀ c ∈ cs, isSceneRestart c = false) : sceneRun s cs = (s, []) := by
  induction cs with
  | nil => rfl
  | cons c cs2 ih =>
    have h1 : sceneStep s c = (s, []) :=
      sceneStep_paused s c hp (hnr c (List.mem_cons_self _ _))
    have h2 : sceneRun s cs2 = (s, []) :=
      ih fun c2 hc2 => hnr c2 (List.mem_cons_of_mem _ hc2)
    simp [sceneRun, h1, h2]

theorem sceneRun_cons (s : SceneState) (c : Cmd) (cs : List Cmd) :
    sceneRun s (c :: cs)
      = ((sceneRun (sceneStep s c).1 cs).1,
         (sceneStep s c).2 ++ (sceneRun (sceneStep s c).1 cs).2) := rfl

theorem sceneStep_died_shape (s : SceneState) (c : Cmd) (items : List ItemData)
    (hmem : GameEvent.playerDied items ∈ (sceneStep s c).2) :
    ∃ h mh atk df fl,
      (sceneStep s c).2 = [GameEvent.playerStatsUpdate h mh atk df fl,
        GameEvent.playerDied items] ∧
      items = s.pendingItems ∧
      (sceneStep s c).1.paused = true ∧
      (sceneStep s c).1.pendingItems = s.pendingItems := by
  cases c with
  | collideEnemy now atk =>
    by_cases hp : s.paused = true
    · simp [sceneStep, hp] at hmem
    · rw [Bool.not_eq_true] at hp
      by_cases hd : (playerTakeDamage s.player now atk).health ≤ 0
      · have hit : items = s.pendingItems := by
          simp [sceneStep, hp, hd, statsUpdate] at hmem
          exact hmem
        subst hit
        exact ⟨(playerTakeDamage s.player now atk).health,
          (playerTakeDamage s.player now atk).maxHealth,
          (playerTakeDamage s.player now atk).attack,
          (playerTakeDamage s.player now atk).defense,
          s.currentFloor,
          by simp [sceneStep, hp, hd, statsUpdate], rfl,
          by simp [sceneStep, hp, hd],
          by simp [sceneStep, hp, hd]⟩
      · simp [sceneStep, hp, hd, statsUpdate] at hmem
  | killEnemy dr er ir =>
    by_cases hp : s.paused = true
    · simp [sceneStep, hp] at hmem
    · rw [Bool.not_eq_true] at hp
      simp only [sceneStep, hp, Bool.false_eq_true, if_false] at hmem
      split at hmem <;> simp at hmem
  | pickupItem item =>
    by_cases hp : s.paused = true
    · simp [sceneStep, hp] at hmem
    · rw [Bool.not_eq_true] at hp
      simp [sceneStep, hp, statsUpdate] at hmem
  | updateTick =>
    by_cases hp : s.paused = true
    · simp [sceneStep, hp] at hmem
    · rw [Bool.not_eq_true] at hp
      simp only [sceneStep, hp, Bool.false_eq_true, if_false] at hmem
      split at hmem <;> simp at hmem
  | touchGate =>
    by_cases hp : s.paused = true
    · simp [sceneStep, hp] at hmem
    · rw [Bool.not_eq_true] at hp
      simp only [sceneStep, hp, Bool.false_eq_true, if_false] at hmem
      split at hmem <;> simp at hmem
  | proceedNextFloor ba bd n => simp [sceneStep] at hmem
  | restartGame ba bd n => simp [sceneStep] at hmem

theorem sceneStep_drop_inv (s : SceneState) (c : Cmd)
    (h : s.dropsThisFloor ≤ maxDropsPerFloor) :
    (sceneStep s c).1.dropsThisFloor ≤ maxDropsPerFloor := by
  cases c <;> simp [sceneStep, initScene] <;>
    (try split) <;> (try split) <;> simp_all <;> omega

theorem sceneStep_dropCount (s : SceneState) (c : Cmd)
    (hc : isSceneRestart c = false) :
    ((sceneStep s c).2.filter isDropEvent).length + s.dropsThisFloor
      = (sceneStep s c).1.dropsThisFloor := by
  cases c with
  | collideEnemy now atk =>
    by_cases hp : s.paused = true <;>
      simp [sceneStep, hp, isDropEvent, statsUpdate] <;>
      split <;> simp [isDropEvent, statsUpdate]
  | killEnemy dr er ir =>
    by_cases hp : s.paused = true
    · simp [sceneStep, hp]
    · rw [Bool.not_eq_true] at hp
      simp only [sceneStep, hp, Bool.false_eq_true, if_false]
      split
      · rename_i hcond
        simp [isDropEvent]
        omega
      · simp
  | pickupItem item =>
    by_cases hp : s.paused = true <;>
      simp [sceneStep, hp, isDropEvent, statsUpdate]
  | updateTick =>
    by_cases hp : s.paused = true
    · simp [sceneStep, hp]
    · rw [Bool.not_eq_true] at hp
      simp only [sceneStep, hp, Bool.false_eq_true, if_false]
      split <;> simp [isDropEvent]
  | touchGate =>
    by_cases hp : s.paused = true
    · simp [sceneStep, hp]
    · rw [Bool.not_eq_true] at hp
      simp only [sceneStep, hp, Bool.false_eq_true, if_false]
      split <;> simp [isDropEvent]
  | proceedNextFloor ba bd n => simp [isSceneRestart] at hc
  | restartGame ba bd n => simp [isSceneRestart] at hc

theorem sceneRun_dropCount (cs : List Cmd) :
    ∀ s : SceneState, (∀ c ∈ cs, isSceneRestart c = false) →
      s.dropsThisFloor ≤ maxDropsPerFloor →
      ((sceneRun s cs).2.filter isDropEvent).length + s.dropsThisFloor
          = (sceneRun s cs).1.dropsThisFloor ∧
        (sceneRun s cs).1.dropsThisFloor ≤ maxDropsPerFloor := by
  induction cs with
  | nil =>
    intro s _ h
    exact ⟨by simp [sceneRun], h⟩
  | cons c cs2 ih =>
    intro s hnr h
    have h1 := sceneStep_dropCount s c (hnr c (List.mem_cons_self _ _))
    have h2 := sceneStep_drop_inv s c h
    obtain ⟨h3, h4⟩ :=
      ih (sceneStep s c).1 (fun c2 hc2 => hnr c2 (List.mem_cons_of_mem _ hc2)) h2
    refine ⟨?_, ?_⟩
    · rw [sceneRun_cons]
      simp only [List.filter_append, List.length_append]
      omega
    · rw [sceneRun_cons]
      exact h4

theorem sceneStep_transCount (s : SceneState) (c : Cmd)
    (hc : isSceneRestart c = false) :
    ((sceneStep s c).2.filter isFloorTransitionEvent).length
        + gateTokens (sceneStep s c).1
      ≤ gateTokens s := by
  cases c with
  | collideEnemy now atk =>
    by_cases hp : s.paused = true <;>
      simp [sceneStep, hp, isFloorTransitionEvent, statsUpdate, gateTokens] <;>
      split <;> simp [isFloorTransitionEvent, statsUpdate, gateTokens]
  | killEnemy dr er ir =>
    by_cases hp : s.paused = true
    · simp [sceneStep, hp]
    · rw [Bool.not_eq_true] at hp
      simp only [sceneStep, hp, Bool.false_eq_true, if_false]
      split <;> simp [isFloorTransitionEvent, gateTokens]
  | pickupItem item =>
    by_cases hp : s.paused = true <;>
      simp [sceneStep, hp, isFloorTransitionEvent, statsUpdate, gateTokens]
  | updateTick =>
    by_cases hp : s.paused = true
    · simp [sceneStep, hp]
    · rw [Bool.not_eq_true] at hp
      simp only [sceneStep, hp, Bool.false_eq_true, if_false]
      split
      · rename_i hcond
        simp [isFloorTransitionEvent, gateTokens, hcond.1]
      · simp
  | touchGate =>
    by_cases hp : s.paused = true
    · simp [sceneStep, hp]
    · rw [Bool.not_eq_true] at hp
      simp only [sceneStep, hp, Bool.false_eq_true, if_false]
      split
      · rename_i hcond
        simp [isFloorTransitionEvent, gateTokens, hcond]
      · simp
  | proceedNextFloor ba bd n => simp [isSceneRestart] at hc
  | restartGame ba bd n => simp [isSceneRestart] at hc

theorem sceneRun_transCount (cs : List Cmd) :
    ∀ s : SceneState, (∀ c ∈ cs, isSceneRestart c = false) →
      ((sceneRun s cs).2.filter isFloorTransitionEvent).length
          + gateTokens (sceneRun s cs).1
        ≤ gateTokens s := by
  induction cs with
  | nil =>
    intro s _
    simp [sceneRun]
  | cons c cs2 ih =>
    intro s hnr
    have h1 := sceneStep_transCount s c (hnr c (List.mem_cons_self _ _))
    have h2 := ih (sceneStep s c).1 (fun c2 hc2 => hnr c2 (List.mem_cons_of_mem _ hc2))
    rw [sceneRun_cons]
    simp only [List.filter_append, List.length_append]
    omega

/-! ### Claim theorems: C5, C6, C9 -/

/-- Claim C5: in any delivery of engine callbacks containing no
scene-restart command, a player-died emission is the last event of the
whole trace (so it happens at most once), it carries the pending items
current at death (equal to the final ones, since the paused scene changes
nothing further), and the scene ends paused: the simulation is frozen
until a restart arrives. -/
theorem player_died_terminal (s0 : SceneState) (cs : List Cmd)
    (pre : List GameEvent) (items : List ItemData) (post : List GameEvent)
    (hnr : ∀ c ∈ cs, isSceneRestart c = false)
    (hsplit : (sceneRun s0 cs).2 = pre ++ GameEvent.playerDied items :: post) :
    post = [] ∧ items = (sceneRun s0 cs).1.pendingItems ∧
      (sceneRun s0 cs).1.paused = true := by
  induction cs generalizing s0 pre with
  | nil =>
    simp [sceneRun] at hsplit
  | cons c cs2 ih =>
    have hnr1 : isSceneRestart c = false := hnr c (List.mem_cons_self _ _)
    have hnr2 : ∀ c2 ∈ cs2, isSceneRestart c2 = false :=
      fun c2 h2 => hnr c2 (List.mem_cons_of_mem _ h2)
    rw [sceneRun_cons] at hsplit ⊢
    simp only at hsplit ⊢
    rcases List.append_eq_append_iff.mp hsplit with ⟨mid, hpre, hq⟩ | ⟨mid, hstep, hq⟩
    · exact ih (sceneStep s0 c).1 mid hnr2 hq
    · cases mid with
      | nil =>
        simp only [List.nil_append] at hq
        exact ih (sceneStep s0 c).1 [] hnr2 (by simpa using hq.symm)
      | cons e mid2 =>
        rw [List.cons_append] at hq
        have he : e = GameEvent.playerDied items ∧ post = mid2 ++ (sceneRun (sceneStep s0 c).1 cs2).2 := by
          have h1 := hq
          injection h1 with ha hb
          exact ⟨ha.symm, hb⟩
        obtain ⟨he1, he2⟩ := he
        subst he1
        have hmem : GameEvent.playerDied items ∈ (sceneStep s0 c).2 := by
          rw [hstep]
          exact List.mem_append_right _ (List.mem_cons_self _ _)
        obtain ⟨h, mh, atk, df, fl, hshape, hitems, hpaused, hpend⟩ :=
          sceneStep_died_shape s0 c items hmem
        rw [hshape] at hstep
        have hrunp : sceneRun (sceneStep s0 c).1 cs2 = ((sceneStep s0 c).1, []) :=
          sceneRun_paused _ cs2 hpaused hnr2
        have hmid2 : mid2 = [] := by
          cases pre with
          | nil =>
            simp at hstep
          | cons x pre2 =>
            cases pre2 with
            | nil =>
              simp at hstep
              exact hstep.2
            | cons y pre3 =>
              simp at hstep
        subst hmid2
        refine ⟨?_, ?_, ?_⟩
        · rw [he2, hrunp]
          rfl
        · rw [hrunp]
          rw [hitems, hpend]
        · rw [hrunp]
          exact hpaused

/-- Witness for C5: starting a fresh run with a lethal collision followed
by another collision, the died event closes the trace, carries the empty
pending list, and the scene is paused. -/
theorem player_died_terminal_witness :
    ([] : List GameEvent) = [] ∧
      ([] : List ItemData) = (sceneRun (initScene 1 [] 0 0 1)
        [Cmd.collideEnemy 500 1000, Cmd.collideEnemy 1100 50]).1.pendingItems ∧
      (sceneRun (initScene 1 [] 0 0 1)
        [Cmd.collideEnemy 500 1000, Cmd.collideEnemy 1100 50]).1.paused = true :=
  player_died_terminal (initScene 1 [] 0 0 1)
    [Cmd.collideEnemy 500 1000, Cmd.collideEnemy 1100 50]
    [GameEvent.playerStatsUpdate 0 100 25 0 1] [] []
    (by decide) (by decide)

/-- Claim C6: on every floor the number of items dropped never exceeds
maxDropsPerFloor = 2: starting from a floor start (drop counter 0) and
delivering any commands that stay on the floor, at most 2 item spawns
occur, and every scene-restart command resets the drop counter to 0. -/
theorem drops_per_floor_capped (s : SceneState) (cs : List Cmd) (c : Cmd)
    (h0 : s.dropsThisFloor = 0)
    (hnr : ∀ c2 ∈ cs, isSceneRestart c2 = false)
    (hc : isSceneRestart c = true) :
    ((sceneRun s cs).2.filter isDropEvent).length ≤ maxDropsPerFloor ∧
      (sceneStep s c).1.dropsThisFloor = 0 := by
  obtain ⟨h1, h2⟩ := sceneRun_dropCount cs s hnr (by omega)
  refine ⟨by omega, ?_⟩
  cases c with
  | proceedNextFloor ba bd n => rfl
  | restartGame ba bd n => rfl
  | collideEnemy now atk => simp [isSceneRestart] at hc
  | killEnemy dr er ir => simp [isSceneRestart] at hc
  | pickupItem item => simp [isSceneRestart] at hc
  | updateTick => simp [isSceneRestart] at hc
  | touchGate => simp [isSceneRestart] at hc

/-- Witness for C6: three kills with successful drop rolls from a fresh
floor spawn only two items, and a restart command resets the counter. -/
theorem drops_per_floor_capped_witness :
    ((sceneRun (initScene 1 [] 0 0 5)
        [Cmd.killEnemy true EnemyRarity.normal 0,
         Cmd.killEnemy true EnemyRarity.normal 0,
         Cmd.killEnemy true EnemyRarity.normal 0]).2.filter isDropEvent).length
        ≤ maxDropsPerFloor ∧
      (sceneStep (initScene 1 [] 0 0 5) (Cmd.restartGame 0 0 5)).1.dropsThisFloor = 0 :=
  drops_per_floor_capped (initScene 1 [] 0 0 5)
    [Cmd.killEnemy true EnemyRarity.normal 0,
     Cmd.killEnemy true EnemyRarity.normal 0,
     Cmd.killEnemy true EnemyRarity.normal 0]
    (Cmd.restartGame 0 0 5) (by decide) (by decide) (by decide)

/-- Claim C9: starting from a floor state with no gate spawned, any
restart-free command delivery emits at most one floor-transition event
(the gate is destroyed and nulled on first contact, and the gateSpawned
flag prevents a second spawn); moreover any emitted floor-transition
carries the current floor, pending items and player attack/defense, and
leaves the gate nulled. -/
theorem gate_transition_once (s : SceneState) (cs : List Cmd) (s2 : SceneState)
    (fl : Nat) (items : List ItemData) (atk df : ℤ)
    (hg : s.gate = false) (hgs : s.gateSpawned = false)
    (hnr : ∀ c ∈ cs, isSceneRestart c = false)
    (hmem : GameEvent.floorTransition fl items atk df ∈ (sceneStep s2 Cmd.touchGate).2) :
    ((sceneRun s cs).2.filter isFloorTransitionEvent).length ≤ 1 ∧
      fl = s2.currentFloor ∧ items = s2.pendingItems ∧ atk = s2.player.attack ∧
      df = s2.player.defense ∧ (sceneStep s2 Cmd.touchGate).1.gate = false := by
  have hcount := sceneRun_transCount cs s hnr
  have htok : gateTokens s = 1 := by
    simp [gateTokens, hg, hgs]
  refine ⟨by omega, ?_⟩
  by_cases hp : s2.paused = true
  · simp [sceneStep, hp] at hmem
  · rw [Bool.not_eq_true] at hp
    by_cases hgate : s2.gate = true
    · simp only [sceneStep, hp, Bool.false_eq_true, if_false, hgate, if_true] at hmem ⊢
      simp at hmem
      obtain ⟨h1, h2, h3, h4⟩ := hmem
      exact ⟨h1, h2, h3, h4, trivial⟩
    · simp only [sceneStep, hp, Bool.false_eq_true, if_false] at hmem
      rw [Bool.not_eq_true] at hgate
      simp [hgate] at hmem

/-- Witness for C9: clearing the floor spawns the gate, and two
consecutive gate touches yield at most one transition; the emitted
payload matches the scene state at contact. -/
theorem gate_transition_once_witness :
    ((sceneRun (initScene 1 [] 0 0 0)
        [Cmd.updateTick, Cmd.touchGate, Cmd.touchGate]).2.filter
          isFloorTransitionEvent).length ≤ 1 ∧
      1 = ((sceneStep (initScene 1 [] 0 0 0) Cmd.updateTick).1).currentFloor ∧
      ([] : List ItemData) = ((sceneStep (initScene 1 [] 0 0 0) Cmd.updateTick).1).pendingItems ∧
      (25 : ℤ) = ((sceneStep (initScene 1 [] 0 0 0) Cmd.updateTick).1).player.attack ∧
      (0 : ℤ) = ((sceneStep (initScene 1 [] 0 0 0) Cmd.updateTick).1).player.defense ∧
      (sceneStep ((sceneStep (initScene 1 [] 0 0 0) Cmd.updateTick).1)
        Cmd.touchGate).1.gate = false :=
  gate_transition_once (initScene 1 [] 0 0 0)
    [Cmd.updateTick, Cmd.touchGate, Cmd.touchGate]
    ((sceneStep (initScene 1 [] 0 0 0) Cmd.updateTick).1)
    1 [] 25 0 (by decide) (by decide) (by decide) (by decide)

end Chainflow
